import Mathlib

/-!
Verification development for the fetch-interception / endpoint-dispatch bridge
of the react-fastapi-pyodide repository.

The definitions below are shallow embeddings of the TypeScript (and embedded
Python) source:

* `FetchInterceptor` (src/packages/pyodide-bridge-ts/src/index.ts, second
  document: fetch-interceptor.ts): `defaultRouteMatcher`, `setupInterceptor`,
  `handleInterceptedRequest`, `cleanUrl`, `findEndpointMatch`, `matchPath`,
  `extractParameters`, `createResponse`.
* `Bridge` (src/packages/pyodide-bridge-ts/tsup.config.ts, third document:
  bridge.ts): `initialize`, `call`, `_extractParams`, `persist`.
* `PyodideEngine` / `PyodidePersistence`
  (src/src/frontend/services/pyodide/...): `initialize`, `savePersistentState`.
* The SwaggerUI fetch interceptor (src/unnamed/part_006): body literal
  normalization and response synthesis.
* `FastAPIBridge.invoke` (Python source embedded in
  src/apps/frontend/src/App.tsx).

Host-language values (the `unknown` / JSON world of JavaScript and Python)
are modelled by the inductive type `Json`; machine numbers that matter here
are small integers (HTTP status codes), modelled by `Int`.
-/

namespace Bridgework

/-- A JSON-like host value: the model of JavaScript `unknown` values that flow
through the bridge (JSON payloads, request parameters, invocation results).
Numbers are modelled as integers, which covers every value the verified code
paths manipulate (HTTP status codes and JSON payloads used by the claims). -/
inductive Json where
  | null : Json
  | bool (b : Bool) : Json
  | num (n : Int) : Json
  | str (s : String) : Json
  | arr (elems : List Json) : Json
  | obj (fields : List (String × Json)) : Json

/-- JavaScript truthiness of a modelled value (`null`, `false`, `0` and `""`
are falsy; arrays and objects are always truthy). -/
def Json.truthy : Json → Bool
  | .null => false
  | .bool b => b
  | .num n => n != 0
  | .str s => s != ""
  | .arr _ => true
  | .obj _ => true

/-- Field access `v.f` on a modelled value: defined (`some`) only when `v` is
an object with field `f`; every other access yields JavaScript `undefined`,
modelled as `none`.  Duplicate keys cannot arise from the sources modelled
here; lookup takes the first occurrence. -/
def Json.getField : Json → String → Option Json
  | .obj fields, name => (fields.find? (fun kv => kv.1 = name)).map (·.2)
  | _, _ => none

mutual

/-- A compact JSON serializer, the model of `JSON.stringify`.  (The SwaggerUI
interceptor passes an indentation of 2 to `JSON.stringify`; the claims only
require that the body is the serialization of the payload, so the model uses
one canonical serialization for both call sites.) -/
def Json.stringify : Json → String
  | .null => "null"
  | .bool true => "true"
  | .bool false => "false"
  | .num n => toString n
  | .str s => "\"" ++ s ++ "\""
  | .arr elems => "[" ++ Json.stringifyArr elems ++ "]"
  | .obj fields => "\x7b" ++ Json.stringifyObj fields ++ "\x7d"

/-- Serializes the element list of a JSON array (comma separated). -/
def Json.stringifyArr : List Json → String
  | [] => ""
  | [e] => e.stringify
  | e :: rest => e.stringify ++ "," ++ Json.stringifyArr rest

/-- Serializes the field list of a JSON object (comma separated). -/
def Json.stringifyObj : List (String × Json) → String
  | [] => ""
  | [kv] => "\"" ++ kv.1 ++ "\":" ++ kv.2.stringify
  | kv :: rest => "\"" ++ kv.1 ++ "\":" ++ kv.2.stringify ++ "," ++ Json.stringifyObj rest

end

/-!
Path matching (`FetchInterceptor.matchPath`,
src/packages/pyodide-bridge-ts fetch-interceptor.ts lines 228-248).

The source compiles a FastAPI-style path template into a JavaScript regular
expression: every group of the form a left brace, one or more characters other
than a right brace, and a right brace is replaced by the capture group
matching one or more characters other than a slash; the result is anchored on
both sides and matched against the request path, greedily and with
backtracking.  Parameter names are read off the template by the same
brace-group pattern, in order, and paired with the captures in order.

The model tokenizes the template exactly as that replacement does (an
unterminated or empty brace group stays literal) and interprets the resulting
token sequence with the anchored, greedy, backtracking semantics of the
JavaScript engine.  Literal characters other than the dot match themselves;
the dot matches any character except a line terminator, as in JavaScript.
The model covers templates whose literal characters avoid the remaining
ECMAScript pattern metacharacters (backslash, caret, dollar, star, plus,
question mark, parentheses, square brackets, vertical bar); the repository's
route templates contain none of them.
-/

/-- One token of a compiled route pattern: either a literal character of the
template or a named capture group produced from a brace-delimited parameter. -/
inductive Tok where
  | lit (c : Char) : Tok
  | group (name : String) : Tok
deriving DecidableEq

/-- Tokenizer worker.  The first argument is `some acc` while inside a brace
group opened earlier (`acc` holds the name characters read so far, in order),
and `none` otherwise.  This mirrors the scan of the global JavaScript
replacement: a brace group must be nonempty and closed to become a capture
group; otherwise its characters remain literals. -/
def tokAux : Option (List Char) → List Char → List Tok
  | none, [] => []
  | none, c :: rest =>
      if c = '{' then tokAux (some []) rest else Tok.lit c :: tokAux none rest
  | some acc, [] => Tok.lit '{' :: acc.map Tok.lit
  | some acc, c :: rest =>
      if c = '}' then
        if acc.isEmpty then Tok.lit '{' :: Tok.lit '}' :: tokAux none rest
        else Tok.group (String.mk acc) :: tokAux none rest
      else tokAux (some (acc ++ [c])) rest

/-- Compiles a path template (as a character list) to its token sequence, the
model of the regex produced at fetch-interceptor.ts line 231. -/
def tokenizeChars (cs : List Char) : List Tok :=
  tokAux none cs

/-- Matching of one literal pattern character against one subject character:
the dot matches anything but a line terminator, every other covered literal
matches exactly itself. -/
def litMatches (c x : Char) : Bool :=
  if c = '.' then !(x = '\n' || x = '\r') else c = x

/-- Backtracking search for a capture group `([^/]+)`: given the continuation
`f` (the matcher for the remaining tokens), a parameter name, the subject,
and a candidate length, try the candidate lengths from longest to shortest
(greedy), returning the first success.  Candidate length `0` fails: the group
requires at least one character. -/
def tryLens (f : List Char → Option (List (String × String)))
    (name : String) (cs : List Char) : Nat → Option (List (String × String))
  | 0 => none
  | k + 1 =>
      match f (cs.drop (k + 1)) with
      | some binds => some ((name, String.mk (cs.take (k + 1))) :: binds)
      | none => tryLens f name cs k

/-- Anchored interpretation of a token sequence over a subject: the model of
matching the compiled `RegExp` against the request path.  A capture group
greedily consumes a nonempty run of non-slash characters (backtracking via
`tryLens`), and the whole subject must be consumed. -/
def tokMatcher : List Tok → List Char → Option (List (String × String))
  | [], cs => if cs.isEmpty then some [] else none
  | Tok.lit c :: ts, cs =>
      match cs with
      | [] => none
      | x :: xs => if litMatches c x then tokMatcher ts xs else none
  | Tok.group name :: ts, cs =>
      tryLens (tokMatcher ts) name cs (cs.takeWhile (fun c => !(c = '/'))).length

/-- Model of `FetchInterceptor.matchPath(requestPath, endpointPath)`: compile
the endpoint path, match the request path against it, and return the
parameter bindings in declaration order (`null` becomes `none`).  The source
stores the bindings in a record keyed by parameter name; the model keeps the
ordered association list built in the same order. -/
def matchPath (requestPath endpointPath : String) : Option (List (String × String)) :=
  tokMatcher (tokenizeChars endpointPath.data) requestPath.data

/-!
Segment-level vocabulary used by the path-matching claim: a path splits into
segments at slashes (as `"…".split("/")` does, with leading, trailing and
empty segments preserved), and a template is a sequence of segments each of
which is wholly literal or wholly a brace-delimited parameter.
-/

/-- Splits a character list at slashes, keeping empty segments; the model of
JavaScript `split("/")`.  The result is always nonempty. -/
def splitSlash : List Char → List (List Char)
  | [] => [[]]
  | c :: cs =>
      if c = '/' then [] :: splitSlash cs
      else
        match splitSlash cs with
        | [] => [[c]]
        | s :: ss => (c :: s) :: ss

/-- One segment of a path template: a literal segment or a `name`-binding
parameter segment written in braces in the template text. -/
inductive Seg where
  | lit (l : List Char) : Seg
  | par (name : List Char) : Seg
deriving DecidableEq

/-- The template text of one segment (a parameter segment is rendered in
braces). -/
def Seg.chars : Seg → List Char
  | .lit l => l
  | .par name => '{' :: name ++ ['}']

/-- The template text of a segment sequence, joined by slashes. -/
def templateOfSegs : List Seg → List Char
  | [] => []
  | [s] => s.chars
  | s :: rest => s.chars ++ '/' :: templateOfSegs rest

/-- A character that the model treats as matching only itself: not a brace,
not a slash, and not an ECMAScript pattern metacharacter. -/
def plainChar (c : Char) : Prop :=
  c ∉ ['{', '}', '/', '.', '\\', '^', '$', '*', '+', '?', '(', ')', '[', ']', '|']

instance : DecidablePred plainChar := fun c =>
  inferInstanceAs
    (Decidable (c ∉ ['{', '}', '/', '.', '\\', '^', '$', '*', '+', '?', '(', ')', '[', ']', '|']))

/-- Well-formedness of a template segment: a literal segment consists of plain
characters; a parameter name is nonempty and free of braces and slashes. -/
def wfSeg : Seg → Prop
  | .lit l => ∀ c ∈ l, plainChar c
  | .par name => name ≠ [] ∧ ∀ c ∈ name, c ≠ '{' ∧ c ≠ '}' ∧ c ≠ '/'

instance : DecidablePred wfSeg := fun s =>
  match s with
  | Seg.lit l => inferInstanceAs (Decidable (∀ c ∈ l, plainChar c))
  | Seg.par name =>
      inferInstanceAs (Decidable (name ≠ [] ∧ ∀ c ∈ name, c ≠ '{' ∧ c ≠ '}' ∧ c ≠ '/'))

/-- Segment-level matching as the claim amended by the code's behavior states
it: segment counts must agree, each literal segment of the template must equal
the corresponding path segment exactly (case-sensitively), and each parameter
segment binds the corresponding path segment, which must be nonempty; the
bindings are returned in declaration order. -/
def segMatch : List Seg → List (List Char) → Option (List (String × String))
  | [], [] => some []
  | Seg.lit l :: ts, p :: ps => if l = p then segMatch ts ps else none
  | Seg.par name :: ts, p :: ps =>
      if p = [] then none
      else (segMatch ts ps).map (fun binds => (String.mk name, String.mk p) :: binds)
  | _, _ => none

/-- Segment-level matching exactly as the original claim states it: segment
counts must agree and each literal segment must equal the corresponding path
segment; a parameter segment binds the corresponding path segment with no
further condition (in particular an empty segment binds). -/
def segMatchOrig : List Seg → List (List Char) → Option (List (String × String))
  | [], [] => some []
  | Seg.lit l :: ts, p :: ps => if l = p then segMatchOrig ts ps else none
  | Seg.par name :: ts, p :: ps =>
      (segMatchOrig ts ps).map (fun binds => (String.mk name, String.mk p) :: binds)
  | _, _ => none

/-!
Lemmas relating the compiled-regex view of a template (token sequence plus
backtracking matcher) to its segment-level view.
-/

theorem tokAux_append_lits (l rest : List Char) (h : ∀ c ∈ l, c ≠ '{') :
    tokAux none (l ++ rest) = l.map Tok.lit ++ tokAux none rest := by
  induction l with
  | nil => rfl
  | cons c l ih =>
      have hc : c ≠ '{' := h c (by simp)
      simp [tokAux, hc, ih (fun d hd => h d (by simp [hd]))]

theorem tokAux_group_close (acc name rest : List Char) (hne : acc ++ name ≠ [])
    (h : ∀ c ∈ name, c ≠ '}') :
    tokAux (some acc) (name ++ '}' :: rest) =
      Tok.group (String.mk (acc ++ name)) :: tokAux none rest := by
  induction name generalizing acc with
  | nil =>
      have hacc : acc ≠ [] := by simpa using hne
      have hie : acc.isEmpty = false := by
        cases acc with
        | nil => exact absurd rfl hacc
        | cons a l => rfl
      simp [tokAux, hie]
  | cons c nm ih =>
      have hc : c ≠ '}' := h c (by simp)
      have step := ih (acc ++ [c]) (by simp) (fun d hd => h d (by simp [hd]))
      simp only [List.cons_append, tokAux, if_neg hc]
      simp only [List.append_eq]
      rw [step]
      simp

theorem splitSlash_ne_nil (cs : List Char) : splitSlash cs ≠ [] := by
  cases cs with
  | nil => simp [splitSlash]
  | cons c cs =>
      by_cases h : c = '/'
      · simp [splitSlash, h]
      · simp only [splitSlash, if_neg h]
        cases splitSlash cs <;> simp

theorem splitSlash_no_slash (cs : List Char) (h : '/' ∉ cs) : splitSlash cs = [cs] := by
  induction cs with
  | nil => rfl
  | cons c cs ih =>
      have hc : c ≠ '/' := fun e => h (by simp [e])
      have ht := ih (fun m => h (by simp [m]))
      simp [splitSlash, hc, ht]

theorem splitSlash_append (l rest : List Char) (h : '/' ∉ l) :
    splitSlash (l ++ '/' :: rest) = l :: splitSlash rest := by
  induction l with
  | nil => simp [splitSlash]
  | cons c l ih =>
      have hc : c ≠ '/' := fun e => h (by simp [e])
      have ht := ih (fun m => h (by simp [m]))
      simp [splitSlash, hc, ht]

theorem splitSlash_cons_of_mem (cs : List Char) (h : '/' ∈ cs) :
    ∃ s ss, splitSlash cs = s :: ss ∧ ss ≠ [] := by
  induction cs with
  | nil => simp at h
  | cons c cs ih =>
      by_cases hc : c = '/'
      · exact ⟨[], splitSlash cs, by simp [splitSlash, hc], splitSlash_ne_nil cs⟩
      · have hmem : '/' ∈ cs := by
          rcases List.mem_cons.mp h with h1 | h1
          · exact absurd h1.symm hc
          · exact h1
        obtain ⟨s, ss, he, hne⟩ := ih hmem
        exact ⟨c :: s, ss, by simp [splitSlash, hc, he], hne⟩

theorem segMatch_nil_right (s : Seg) (rest : List Seg) :
    segMatch (s :: rest) [] = none := by
  cases s <;> rfl

theorem dropWhile_head_not {p : Char → Bool} {l : List Char} {x : Char} {xs : List Char}
    (h : l.dropWhile p = x :: xs) : p x = false := by
  induction l with
  | nil => simp [List.dropWhile] at h
  | cons c l ih =>
      by_cases hc : p c
      · exact ih (by simpa [List.dropWhile, hc] using h)
      · rw [List.dropWhile_cons_of_neg hc] at h
        cases h
        exact Bool.not_eq_true _ ▸ (by simpa using hc)

theorem drop_in_run {p : Char → Bool} (cs : List Char) (j : Nat)
    (h : j < (cs.takeWhile p).length) :
    ∃ x xs, cs.drop j = x :: xs ∧ p x = true := by
  induction cs generalizing j with
  | nil => simp [List.takeWhile] at h
  | cons c cs ih =>
      by_cases hc : p c
      · rw [List.takeWhile_cons_of_pos hc] at h
        cases j with
        | zero => exact ⟨c, cs, rfl, hc⟩
        | succ j =>
            obtain ⟨x, xs, he, hp⟩ := ih j (by simpa using h)
            exact ⟨x, xs, by simpa using he, hp⟩
      · rw [List.takeWhile_cons_of_neg hc] at h
        simp at h

theorem tryLens_spec (f : List Char → Option (List (String × String)))
    (n : String) (cs : List Char) (k : Nat)
    (h : ∀ j, 1 ≤ j → j < k → f (cs.drop j) = none) :
    tryLens f n cs k =
      if k = 0 then none
      else (f (cs.drop k)).map (fun binds => (n, String.mk (cs.take k)) :: binds) := by
  induction k with
  | zero => simp [tryLens]
  | succ k ih =>
      simp only [tryLens]
      cases hf : f (cs.drop (k + 1)) with
      | some binds => simp [hf]
      | none =>
          rw [ih (fun j h1 h2 => h j h1 (by omega))]
          by_cases hk : k = 0
          · simp [hk, hf]
          · rw [if_neg hk, h k (by omega) (by omega)]
            simp [hf]

theorem tokMatcher_group (n : String) (ts : List Tok) (cs : List Char)
    (hts : ts = [] ∨ ∃ ts', ts = Tok.lit '/' :: ts') :
    tokMatcher (Tok.group n :: ts) cs =
      (if (cs.takeWhile (fun c => !(c = '/'))) = [] then none
       else (tokMatcher ts (cs.drop (cs.takeWhile (fun c => !(c = '/'))).length)).map
         (fun binds => (n, String.mk (cs.takeWhile (fun c => !(c = '/')))) :: binds)) := by
  have hj : ∀ j, 1 ≤ j → j < (cs.takeWhile (fun c => !(c = '/'))).length →
      tokMatcher ts (cs.drop j) = none := by
    intro j _ h2
    obtain ⟨x, xs, he, hp⟩ := drop_in_run cs j h2
    have hx : x ≠ '/' := by simpa using hp
    rcases hts with h | ⟨ts', h⟩ <;> subst h <;> rw [he]
    · simp [tokMatcher]
    · simp [tokMatcher, litMatches, Ne.symm hx]
  have hgoal : tokMatcher (Tok.group n :: ts) cs =
      tryLens (tokMatcher ts) n cs (cs.takeWhile (fun c => !(c = '/'))).length := rfl
  rw [hgoal, tryLens_spec _ _ _ _ hj]
  by_cases h0 : (cs.takeWhile (fun c => !(c = '/'))).length = 0
  · simp [h0, List.length_eq_zero.mp h0]
  · have hrne : cs.takeWhile (fun c => !(c = '/')) ≠ [] := by
      intro e; rw [e] at h0; simp at h0
    rw [if_neg h0, if_neg hrne,
      (List.prefix_iff_eq_take.mp (cs.takeWhile_prefix _)).symm]

theorem run_decomp (cs : List Char) (h : '/' ∈ cs) :
    ∃ cs₂, cs.drop (cs.takeWhile (fun c => !(c = '/'))).length = '/' :: cs₂ ∧
      cs = (cs.takeWhile (fun c => !(c = '/'))) ++ '/' :: cs₂ ∧
      '/' ∉ cs.takeWhile (fun c => !(c = '/')) := by
  have h1 : cs.takeWhile (fun c => !(c = '/')) ++ cs.dropWhile (fun c => !(c = '/')) = cs :=
    List.takeWhile_append_dropWhile (fun c => !(c = '/')) cs
  have hd : cs.drop (cs.takeWhile (fun c => !(c = '/'))).length
      = cs.dropWhile (fun c => !(c = '/')) := by
    have hd0 := List.drop_left (cs.takeWhile (fun c => !(c = '/')))
      (cs.dropWhile (fun c => !(c = '/')))
    rw [h1] at hd0
    exact hd0
  have hnr : '/' ∉ cs.takeWhile (fun c => !(c = '/')) := by
    intro hm
    have := List.mem_takeWhile_imp hm
    simp at this
  cases he : cs.dropWhile (fun c => !(c = '/')) with
  | nil =>
      exfalso
      rw [he] at h1
      simp at h1
      exact h1 '/' h rfl
  | cons y ys =>
      have hy : y = '/' := by
        have := dropWhile_head_not he
        simpa using this
      subst hy
      exact ⟨ys, by rw [hd, he], by conv_lhs => rw [← h1, he], hnr⟩

theorem takeWhile_of_no_slash (cs : List Char) (h : '/' ∉ cs) :
    cs.takeWhile (fun c => !(c = '/')) = cs := by
  induction cs with
  | nil => rfl
  | cons c cs ih =>
      have hc : c ≠ '/' := fun e => h (by simp [e])
      have ht := ih (fun m => h (by simp [m]))
      simp [List.takeWhile_cons, hc, ht]

theorem lit_single (l : List Char) (hl : ∀ c ∈ l, plainChar c) :
    ∀ cs, tokMatcher (l.map Tok.lit) cs = segMatch [Seg.lit l] (splitSlash cs) := by
  induction l with
  | nil =>
      intro cs
      cases cs with
      | nil => rfl
      | cons x xs =>
          obtain ⟨s, ss, he⟩ := List.exists_cons_of_ne_nil (splitSlash_ne_nil xs)
          by_cases hx : x = '/'
          · simp [tokMatcher, splitSlash, hx, he, segMatch]
          · simp [tokMatcher, splitSlash, hx, he, segMatch]
  | cons a l ih =>
      intro cs
      have ha := hl a (by simp)
      have ha' : a ≠ '.' ∧ a ≠ '/' := by
        simp [plainChar] at ha; exact ⟨ha.2.2.2.1, ha.2.2.1⟩
      cases cs with
      | nil => simp [tokMatcher, splitSlash, segMatch]
      | cons x xs =>
          by_cases hax : a = x
          · subst hax
            obtain ⟨s, ss, he⟩ := List.exists_cons_of_ne_nil (splitSlash_ne_nil xs)
            have hstep := ih (fun d hd => hl d (by simp [hd])) xs
            rw [he] at hstep
            simp only [List.map_cons, tokMatcher, litMatches, if_neg ha'.1]
            rw [if_pos (by simp)]
            rw [hstep]
            simp [splitSlash, ha'.2, he, segMatch]
          · simp only [List.map_cons, tokMatcher, litMatches, if_neg ha'.1]
            rw [if_neg (by simpa using hax)]
            by_cases hx : x = '/'
            · obtain ⟨s, ss, he⟩ := List.exists_cons_of_ne_nil (splitSlash_ne_nil xs)
              simp [splitSlash, hx, segMatch]
            · obtain ⟨s, ss, he⟩ := List.exists_cons_of_ne_nil (splitSlash_ne_nil xs)
              simp [splitSlash, hx, he, segMatch, hax]

theorem lit_cons (l : List Char) (hl : ∀ c ∈ l, plainChar c)
    (K : List Tok) (SS : List Seg) (hSS : SS ≠ [])
    (hK : ∀ cs, tokMatcher K cs = segMatch SS (splitSlash cs)) :
    ∀ cs, tokMatcher (l.map Tok.lit ++ Tok.lit '/' :: K) cs
      = segMatch (Seg.lit l :: SS) (splitSlash cs) := by
  induction l with
  | nil =>
      intro cs
      obtain ⟨s₂, SS', hSSe⟩ := List.exists_cons_of_ne_nil hSS
      cases cs with
      | nil => simp [tokMatcher, splitSlash, segMatch, hSSe, segMatch_nil_right]
      | cons x xs =>
          by_cases hx : x = '/'
          · subst hx
            have h1 : tokMatcher (List.map Tok.lit [] ++ Tok.lit '/' :: K) ('/' :: xs)
                = tokMatcher K xs := by
              simp [tokMatcher, litMatches]
            rw [h1, hK xs]
            simp [splitSlash, segMatch]
          · have h1 : tokMatcher (List.map Tok.lit [] ++ Tok.lit '/' :: K) (x :: xs)
                = none := by
              simp [tokMatcher, litMatches, Ne.symm hx]
            rw [h1]
            obtain ⟨s, ss, he⟩ := List.exists_cons_of_ne_nil (splitSlash_ne_nil xs)
            simp [splitSlash, hx, he, segMatch]
  | cons a l ih =>
      intro cs
      have ha := hl a (by simp)
      have ha' : a ≠ '.' ∧ a ≠ '/' := by
        simp [plainChar] at ha; exact ⟨ha.2.2.2.1, ha.2.2.1⟩
      cases cs with
      | nil => simp [tokMatcher, splitSlash, segMatch]
      | cons x xs =>
          by_cases hax : a = x
          · subst hax
            obtain ⟨s, ss, he⟩ := List.exists_cons_of_ne_nil (splitSlash_ne_nil xs)
            have hstep := ih (fun d hd => hl d (by simp [hd])) xs
            rw [he] at hstep
            simp only [List.map_cons, List.cons_append, List.append_eq, tokMatcher,
              litMatches, if_neg ha'.1]
            rw [if_pos (by simp)]
            rw [hstep]
            simp [splitSlash, ha'.2, he, segMatch]
          · simp only [List.map_cons, List.cons_append, List.append_eq, tokMatcher,
              litMatches, if_neg ha'.1]
            rw [if_neg (by simpa using hax)]
            by_cases hx : x = '/'
            · simp [splitSlash, hx, segMatch]
            · obtain ⟨s, ss, he⟩ := List.exists_cons_of_ne_nil (splitSlash_ne_nil xs)
              simp [splitSlash, hx, he, segMatch, hax]

theorem par_single (n : List Char) :
    ∀ cs, tokMatcher [Tok.group (String.mk n)] cs = segMatch [Seg.par n] (splitSlash cs) := by
  intro cs
  rw [show [Tok.group (String.mk n)] = Tok.group (String.mk n) :: ([] : List Tok) from rfl,
    tokMatcher_group _ _ _ (Or.inl rfl)]
  by_cases hsl : '/' ∈ cs
  · obtain ⟨cs₂, hdrop, _, _⟩ := run_decomp cs hsl
    obtain ⟨s, ss, he, hssne⟩ := splitSlash_cons_of_mem cs hsl
    obtain ⟨s₂, ss₂, he₂⟩ := List.exists_cons_of_ne_nil hssne
    rw [hdrop, he, he₂]
    cases s <;> simp [tokMatcher, segMatch]
  · have hr : cs.takeWhile (fun c => !(c = '/')) = cs := takeWhile_of_no_slash cs hsl
    rw [splitSlash_no_slash cs hsl, hr, List.drop_length]
    cases cs with
    | nil => simp [tokMatcher, segMatch]
    | cons x xs => simp [tokMatcher, segMatch]

theorem par_cons (n : List Char) (K : List Tok) (SS : List Seg) (hSS : SS ≠ [])
    (hK : ∀ cs, tokMatcher K cs = segMatch SS (splitSlash cs)) :
    ∀ cs, tokMatcher (Tok.group (String.mk n) :: Tok.lit '/' :: K) cs
      = segMatch (Seg.par n :: SS) (splitSlash cs) := by
  intro cs
  obtain ⟨s₂, SS', hSSe⟩ := List.exists_cons_of_ne_nil hSS
  rw [tokMatcher_group _ _ _ (Or.inr ⟨K, rfl⟩)]
  by_cases hsl : '/' ∈ cs
  · obtain ⟨cs₂, hdrop, hcseq, hnr⟩ := run_decomp cs hsl
    have hsplit : splitSlash cs = cs.takeWhile (fun c => !(c = '/')) :: splitSlash cs₂ := by
      conv_lhs => rw [hcseq]
      exact splitSlash_append _ _ hnr
    rw [hdrop, hsplit]
    by_cases hr : cs.takeWhile (fun c => !(c = '/')) = []
    · simp [hr, segMatch]
    · have hlit : tokMatcher (Tok.lit '/' :: K) ('/' :: cs₂) = tokMatcher K cs₂ := by
        simp [tokMatcher, litMatches]
      rw [if_neg hr, hlit, hK cs₂]
      simp [segMatch, hr]
  · have hr : cs.takeWhile (fun c => !(c = '/')) = cs := takeWhile_of_no_slash cs hsl
    rw [splitSlash_no_slash cs hsl, hr, List.drop_length]
    cases cs with
    | nil => simp [tokMatcher, segMatch]
    | cons x xs =>
        simp [tokMatcher, segMatch, hSSe, segMatch_nil_right]

/-- The central path-matching theorem: on a well-formed template, presented as
its nonempty segment sequence, the compiled-regex matcher of the source
behaves exactly as segment-by-segment matching with the nonempty-parameter
side condition (`segMatch`). -/
theorem tokMatcher_segs (rest : List Seg) :
    ∀ s : Seg, (∀ t ∈ s :: rest, wfSeg t) →
    ∀ cs : List Char,
      tokMatcher (tokenizeChars (templateOfSegs (s :: rest))) cs
        = segMatch (s :: rest) (splitSlash cs) := by
  induction rest with
  | nil =>
      intro s hwf cs
      cases s with
      | lit l =>
          have hl : ∀ c ∈ l, plainChar c := hwf (Seg.lit l) (by simp)
          have htok : tokenizeChars (templateOfSegs [Seg.lit l]) = l.map Tok.lit := by
            show tokAux none l = _
            have := tokAux_append_lits l [] (fun c hc => by
              have := hl c hc; simp [plainChar] at this; exact this.1)
            simpa [tokAux] using this
          rw [htok]
          exact lit_single l hl cs
      | par nm =>
          have hn := hwf (Seg.par nm) (by simp)
          simp only [wfSeg] at hn
          have htok : tokenizeChars (templateOfSegs [Seg.par nm]) = [Tok.group (String.mk nm)] := by
            show tokAux none ('{' :: (nm ++ ['}'])) = _
            rw [show tokAux none ('{' :: (nm ++ ['}'])) = tokAux (some []) (nm ++ '}' :: []) by
              simp [tokAux]]
            rw [tokAux_group_close [] nm [] (by simpa using hn.1)
              (fun c hc => (hn.2 c hc).2.1)]
            rfl
          rw [htok]
          exact par_single nm cs
  | cons s₂ rest' ih =>
      intro s hwf cs
      have hK : ∀ cs, tokMatcher (tokenizeChars (templateOfSegs (s₂ :: rest'))) cs
          = segMatch (s₂ :: rest') (splitSlash cs) :=
        ih s₂ (fun t ht => hwf t (by simp at ht ⊢; tauto))
      have htempl : templateOfSegs (s :: s₂ :: rest')
          = s.chars ++ '/' :: templateOfSegs (s₂ :: rest') := rfl
      cases s with
      | lit l =>
          have hl : ∀ c ∈ l, plainChar c := hwf (Seg.lit l) (by simp)
          have htok : tokenizeChars (templateOfSegs (Seg.lit l :: s₂ :: rest'))
              = l.map Tok.lit ++ Tok.lit '/' :: tokenizeChars (templateOfSegs (s₂ :: rest')) := by
            show tokAux none (l ++ '/' :: templateOfSegs (s₂ :: rest')) = _
            rw [tokAux_append_lits l _ (fun c hc => by
              have := hl c hc; simp [plainChar] at this; exact this.1)]
            simp [tokAux, tokenizeChars]
          rw [htok]
          exact lit_cons l hl _ _ (by simp) hK cs
      | par nm =>
          have hn := hwf (Seg.par nm) (by simp)
          simp only [wfSeg] at hn
          have htok : tokenizeChars (templateOfSegs (Seg.par nm :: s₂ :: rest'))
              = Tok.group (String.mk nm)
                :: Tok.lit '/' :: tokenizeChars (templateOfSegs (s₂ :: rest')) := by
            show tokAux none ('{' :: (nm ++ ['}']) ++ '/' :: templateOfSegs (s₂ :: rest')) = _
            rw [show ('{' :: (nm ++ ['}']) ++ '/' :: templateOfSegs (s₂ :: rest'))
                = '{' :: (nm ++ '}' :: ('/' :: templateOfSegs (s₂ :: rest'))) by simp]
            rw [show tokAux none ('{' :: (nm ++ '}' :: ('/' :: templateOfSegs (s₂ :: rest'))))
                = tokAux (some []) (nm ++ '}' :: ('/' :: templateOfSegs (s₂ :: rest'))) by
              simp [tokAux]]
            rw [tokAux_group_close [] nm _ (by simpa using hn.1)
              (fun c hc => (hn.2 c hc).2.1)]
            simp [tokAux, tokenizeChars]
          rw [htok]
          exact par_cons nm _ _ (by simp) hK cs

/-!
Fetch interceptor state and helpers
(src/packages/pyodide-bridge-ts fetch-interceptor.ts).

All strings handled by these code paths are ASCII, so JavaScript UTF-16
index arithmetic (`substring`, `length`) coincides with character counting.
-/

/-- The configuration record of `FetchInterceptor` after the constructor has
merged defaults (fetch-interceptor.ts lines 72-85).  The `routeMatcher` and
`debug` members are handled separately: the matcher is a parameter of the
intercepted fetch, and debug logging has no observable effect here. -/
structure InterceptorConfig where
  apiPrefix : String
  baseUrl : String
  interceptRelative : Bool
deriving DecidableEq

/-- The defaults merged in the constructor when the caller supplies no
overrides: apiPrefix `/api`, empty baseUrl, interceptRelative true. -/
def defaultConfig : InterceptorConfig :=
  ⟨"/api", "", true⟩

/-- Boolean string-starts-with, the model of JavaScript
`url.startsWith(pre)`. -/
def strStarts (url pre : String) : Bool :=
  pre.data.isPrefixOf url.data

/-- Model of `String.prototype.substring(n)`: drop the first `n` characters. -/
def strDrop (s : String) (n : Nat) : String :=
  String.mk (s.data.drop n)

/-- Model of `defaultRouteMatcher` (fetch-interceptor.ts lines 87-103).  A
configuration string is truthy exactly when it is nonempty. -/
def defaultRouteMatcher (cfg : InterceptorConfig) (url : String) : Bool :=
  if cfg.apiPrefix != "" && strStarts url cfg.apiPrefix then true
  else if cfg.baseUrl != "" && strStarts url cfg.baseUrl then true
  else if cfg.interceptRelative && !strStarts url "http" then true
  else false

/-- Model of `cleanUrl` (fetch-interceptor.ts lines 169-191): strip the base
URL, then the API prefix (restoring a leading slash), then cut the query
string.  (The source's `if (url === '/') url = '/'` branch is the identity
and is omitted.) -/
def cleanUrl (cfg : InterceptorConfig) (url : String) : String :=
  let url1 := if cfg.baseUrl != "" && strStarts url cfg.baseUrl
    then strDrop url cfg.baseUrl.length else url
  let url2 := if cfg.apiPrefix != "" && strStarts url1 cfg.apiPrefix
    then
      let u := strDrop url1 cfg.apiPrefix.length
      if !strStarts u "/" then "/" ++ u else u
    else url1
  String.mk (url2.data.takeWhile (fun c => !(c = '?')))

/-- One registered endpoint as the bridge reports it (types.ts lines 44-52;
the optional metadata fields play no role in dispatch). -/
structure Endpoint where
  operationId : String
  path : String
  method : String
deriving DecidableEq

/-- ASCII model of `String.prototype.toUpperCase()`. -/
def upperS (s : String) : String :=
  String.mk (s.data.map Char.toUpper)

/-- Model of `findEndpointMatch` (fetch-interceptor.ts lines 193-226): scan
the bridge's endpoint list in order; the first endpoint whose upper-cased
method equals the request method and whose cleaned path matches the request
path wins. -/
def findEndpointMatch (cfg : InterceptorConfig) (endpoints : List Endpoint)
    (path : String) (method : String) :
    Option (Endpoint × List (String × String)) :=
  match endpoints with
  | [] => none
  | ep :: rest =>
      if upperS ep.method = method then
        match matchPath path (cleanUrl cfg ep.path) with
        | some m => some (ep, m)
        | none => findEndpointMatch cfg rest path method
      else findEndpointMatch cfg rest path method

/-- The body member of a `RequestInit`: either a string or some other host
value (Blob, FormData, ...), which the source forwards unparsed. -/
inductive BodyInit where
  | strBody (s : String) : BodyInit
  | rawBody (v : Json) : BodyInit

/-- The slice of a `RequestInit` record that the interceptor reads. -/
structure ReqInit where
  method : Option String
  body : Option BodyInit

/-- Query-string extraction, the model of iterating
`new URL(url, 'http://localhost').searchParams` (fetch-interceptor.ts lines
260-267) for percent-free URLs: everything after the first question mark,
split at ampersands (empty parts skipped), each part split at its first
equals sign. -/
def parseQueryString (url : String) : List (String × String) :=
  let after := (url.data.dropWhile (fun c => !(c = '?'))).drop 1
  (splitAmp after).filterMap (fun part =>
    if part.isEmpty then none
    else some (String.mk (part.takeWhile (fun c => !(c = '='))),
      String.mk ((part.dropWhile (fun c => !(c = '='))).drop 1)))
where
  /-- Splits a character list at ampersands. -/
  splitAmp : List Char → List (List Char)
    | [] => [[]]
    | c :: cs =>
        if c = '&' then [] :: splitAmp cs
        else
          match splitAmp cs with
          | [] => [[c]]
          | s :: ss => (c :: s) :: ss

/-- Model of `extractParameters` (fetch-interceptor.ts lines 250-283) as the
ordered entry list of the built `CallParams` record: first the path
parameters (re-derived through `findEndpointMatch`), then a `queryParams`
object if any query entries exist, then a `body` entry for POST/PUT/PATCH
requests that carry a truthy one (an empty string body is falsy in the
source's guard and is skipped).  `jsonParse` is the host's `JSON.parse` primitive,
abstracted: `none` models a thrown parse error, upon which the raw string
body is forwarded unchanged. -/
def extractParameters (cfg : InterceptorConfig) (endpoints : List Endpoint)
    (jsonParse : String → Option Json) (url : String) (ep : Endpoint)
    (init : Option ReqInit) : List (String × Json) :=
  let base : List (String × Json) :=
    match findEndpointMatch cfg endpoints (cleanUrl cfg url) (upperS ep.method) with
    | some (_, pps) => pps.map (fun kv => (kv.1, Json.str kv.2))
    | none => []
  let qps := parseQueryString url
  let base := if qps.isEmpty then base
    else base ++ [("queryParams", Json.obj (qps.map (fun kv => (kv.1, Json.str kv.2))))]
  match init with
  | none => base
  | some i =>
      match i.body with
      | none => base
      | some b =>
          if upperS ep.method = "POST" ∨ upperS ep.method = "PUT"
              ∨ upperS ep.method = "PATCH" then
            match b with
            | .strBody s =>
                if s = "" then base
                else base ++ [("body", (jsonParse s).getD (Json.str s))]
            | .rawBody v => base ++ [("body", v)]
          else base

/-- The observable slice of a synthesized `Response` object. -/
structure ResponseM where
  status : Int
  statusText : String
  body : String
  headers : List (String × String)

/-- Model of `FetchInterceptor.createResponse` (fetch-interceptor.ts lines
285-296): the bridge result is serialized and wrapped in a `Response` whose
status is always 200. -/
def createResponse (data : Json) : ResponseM :=
  ⟨200, "OK", data.stringify,
    [("Content-Type", "application/json"), ("X-Pyodide-Bridge", "true")]⟩

/-!
The Bridge class (tsup.config.ts, third embedded document: bridge.ts).
-/

/-- The structured result the embedded runtime returns for one invocation
(types.ts lines 60-63). -/
structure ApiResponse where
  content : Json
  status_code : Int

/-- The data of a thrown `CallError` (types.ts lines 110-120). -/
structure CallErrorE where
  message : String
  operationId : String
  statusCode : Option Int
  details : Option Json

/-- What happens inside the runtime during one `call`: either a structured
result is produced and decoded, or some exception escapes
(`runPythonAsync` failure, JSON decode failure, ...). -/
inductive RuntimeOutcome where
  | ok (r : ApiResponse) : RuntimeOutcome
  | raise (msg : String) : RuntimeOutcome

/-- Model of `Bridge.call` (bridge.ts lines 577-648).  The guard clauses
throw a `CallError` when the backend is not loaded or Pyodide is absent; a
runtime exception is wrapped into a `CallError` carrying only the operation
id; a decoded result with status at least 400 becomes a `CallError` carrying
the operation id, the status code and the content; otherwise the decoded
content is returned.  A thrown error is modelled as `Except.error`. -/
def bridgeCall (backendLoaded pyodideLoaded : Bool) (operationId : String)
    (runtime : RuntimeOutcome) : Except CallErrorE Json :=
  if !backendLoaded then .error ⟨"Backend not loaded", operationId, none, none⟩
  else if !pyodideLoaded then .error ⟨"Pyodide not initialized", operationId, none, none⟩
  else
    match runtime with
    | .raise msg => .error ⟨"Call failed: " ++ msg, operationId, none, none⟩
    | .ok r =>
        if r.status_code ≥ 400 then
          .error ⟨"API call failed: " ++ r.content.stringify, operationId,
            some r.status_code, some r.content⟩
        else .ok r.content

/-- The two ways an intercepted fetch can resolve: with a synthesized
response, or by delegating to the saved original fetch primitive. -/
inductive FetchOutcome where
  | response (r : ResponseM) : FetchOutcome
  | passthrough : FetchOutcome

/-- Method resolution `init?.method?.toUpperCase() || 'GET'` (line 142): the
upper-cased method when present and nonempty, GET otherwise. -/
def requestMethod (init : Option ReqInit) : String :=
  match init with
  | some i =>
      match i.method with
      | some m => if upperS m = "" then "GET" else upperS m
      | none => "GET"
  | none => "GET"

/-- Model of `handleInterceptedRequest` (fetch-interceptor.ts lines 140-167):
resolve the method (default GET), clean the URL, find the endpoint (throwing
when none matches), extract parameters, call the bridge (whose thrown
`CallError` propagates), and wrap the result.  Thrown errors are modelled as
`Except.error` carrying the message. -/
def handleInterceptedRequest (cfg : InterceptorConfig) (endpoints : List Endpoint)
    (jsonParse : String → Option Json)
    (call : String → List (String × Json) → Except CallErrorE Json)
    (url : String) (init : Option ReqInit) : Except String ResponseM :=
  let method := requestMethod init
  let cleaned := cleanUrl cfg url
  match findEndpointMatch cfg endpoints cleaned method with
  | none => .error ("No endpoint found for " ++ method ++ " " ++ cleaned)
  | some (ep, _) =>
      let params := extractParameters cfg endpoints jsonParse url ep init
      match call ep.operationId params with
      | .error e => .error e.message
      | .ok result => .ok (createResponse result)

/-- Model of the replaced global fetch (`setupInterceptor`,
fetch-interceptor.ts lines 105-138): a URL rejected by the route matcher goes
to the original fetch; an accepted URL is handled, and if handling throws
(no endpoint, bridge error, ...) the catch block falls back to the original
fetch - the exception is swallowed, and no synthetic error response is
built. -/
def interceptedFetch (cfg : InterceptorConfig) (routeMatcher : String → Bool)
    (endpoints : List Endpoint) (jsonParse : String → Option Json)
    (call : String → List (String × Json) → Except CallErrorE Json)
    (url : String) (init : Option ReqInit) : FetchOutcome :=
  if routeMatcher url then
    match handleInterceptedRequest cfg endpoints jsonParse call url init with
    | .ok resp => .response resp
    | .error _ => .passthrough
  else .passthrough

/-!
Parameter classification in `Bridge._extractParams`
(bridge.ts lines 705-729).
-/

/-- JavaScript test `typeof value === "object" && value !== null` on a
modelled value: true exactly for arrays and objects (`null` is of object
type but explicitly excluded by the source). -/
def jsIsObject : Json → Bool
  | .arr _ => true
  | .obj _ => true
  | _ => false

/-- Boolean string-ends-with, the model of `key.endsWith("_id")`. -/
def strEnds (s suffix : String) : Bool :=
  suffix.data.isSuffixOf s.data

/-- Model of `Bridge._extractParams` (bridge.ts lines 705-729).  The params
record is processed as its ordered entry list; an entry whose key ends in
`_id` or equals `id` is appended to the path parameters, any other entry
with an object value overwrites the single body slot, and everything else
is appended to the query parameters.  The endpoint lookup performed by the
source binds a variable that is never read; it is kept here for fidelity. -/
def extractParams (endpoints : List Endpoint) (operationId : String)
    (params : List (String × Json)) :
    List (String × Json) × List (String × Json) × Option Json :=
  let _endpoint := endpoints.find? (fun ep => ep.operationId == operationId)
  params.foldl
    (fun acc kv =>
      if strEnds kv.1 "_id" || kv.1 == "id" then (acc.1 ++ [kv], acc.2.1, acc.2.2)
      else if jsIsObject kv.2 then (acc.1, acc.2.1, some kv.2)
      else (acc.1, acc.2.1 ++ [kv], acc.2.2))
    ([], [], none)

/-!
Initialization state machine (`Bridge.initialize` and
`Bridge._performInitialization`, bridge.ts lines 283-320, and the
structurally identical `PyodideEngine.initialize`,
src/src/frontend/services/pyodide/PyodideEngine.ts lines 23-33).

Promises are modelled by identifiers; `rejected` records which of them have
rejected.  `initCall` is the synchronous body of `initialize()`;
`initSucceed` and `initFail` are the two ways the in-flight work of
`_performInitialization` can complete.
-/

/-- The session state read and written by `initialize()`: the
`isInitialized` flag, the stored in-flight promise (if any), and the set of
promises known to have rejected. -/
structure SessionState where
  isInitialized : Bool
  initPromise : Option Nat
  rejected : List Nat
deriving DecidableEq

/-- What one call of `initialize()` returns: nothing new (already
initialized), the stored in-flight promise, or a freshly started one. -/
inductive InitResult where
  | alreadyDone : InitResult
  | awaitExisting (p : Nat) : InitResult
  | started (p : Nat) : InitResult
deriving DecidableEq

/-- A fresh session: not initialized, no stored promise, nothing rejected. -/
def freshSession : SessionState :=
  ⟨false, none, []⟩

/-- Model of the synchronous body of `initialize()` (bridge.ts lines
283-289 / PyodideEngine.ts lines 23-33): return early when initialized,
return the stored promise when one exists, otherwise store and return the
promise of a new `_performInitialization` run. -/
def initCall (s : SessionState) (fresh : Nat) : InitResult × SessionState :=
  if s.isInitialized then (.alreadyDone, s)
  else
    match s.initPromise with
    | some p => (.awaitExisting p, s)
    | none => (.started fresh, { s with initPromise := some fresh })

/-- Completion of the in-flight work with success: `isInitialized` is set
(bridge.ts line 307 / PyodideEngine.ts line 84). -/
def initSucceed (s : SessionState) : SessionState :=
  { s with isInitialized := true }

/-- Completion of the in-flight work with failure: the error is wrapped and
rethrown (bridge.ts lines 310-319), which rejects the stored promise; the
source writes neither `isInitialized` nor the stored promise reference on
this path. -/
def initFail (s : SessionState) : SessionState :=
  match s.initPromise with
  | some p => { s with rejected := p :: s.rejected }
  | none => s

/-!
Persistence (`Bridge.persist`, bridge.ts lines 741-765, and
`PyodidePersistence.savePersistentState`,
src/src/frontend/services/pyodide/PyodidePersistence.ts lines 167-190).

`syncErr` is the error, if any, that the `FS.syncfs` flush reports to its
callback.
-/

/-- The observable outcome of one persist operation: whether a warning was
logged, and whether the returned promise resolved (`ok`) or rejected
(`error`). -/
structure PersistOutcome where
  loggedWarning : Bool
  result : Except String Unit

/-- Model of `Bridge.persist`: an early return when Pyodide is absent or not
in a browser; with an `FS` object, a reported sync error rejects the inner
promise, and the catch block logs a warning and rethrows the error. -/
def bridgePersist (pyodideLoaded inBrowser hasFS : Bool)
    (syncErr : Option String) : PersistOutcome :=
  if !pyodideLoaded || !inBrowser then ⟨false, .ok ()⟩
  else if hasFS then
    match syncErr with
    | some e => ⟨true, .error e⟩
    | none => ⟨false, .ok ()⟩
  else ⟨false, .ok ()⟩

/-- Model of `PyodidePersistence.savePersistentState`: an early warning-and-
return when Pyodide is absent; otherwise the syncfs callback logs a warning
and resolves even when an error is reported, and the outer catch also only
logs. -/
def savePersistentState (pyodideLoaded : Bool) (syncErr : Option String) :
    PersistOutcome :=
  if !pyodideLoaded then ⟨true, .ok ()⟩
  else
    match syncErr with
    | some _ => ⟨true, .ok ()⟩
    | none => ⟨false, .ok ()⟩

/-- Model of the tail of `PyodideEngine.executeEndpoint` (PyodideEngine.ts
lines 129-160): after the endpoint executes, an auto-save awaits
`savePersistentState`, whose rejection (were it possible) would reject the
surrounding API call. -/
def executeEndpointAutoSave (execResult : Json) (shouldAutoSave : Bool)
    (pyodideLoaded : Bool) (syncErr : Option String) : Except String Json :=
  if shouldAutoSave then
    match (savePersistentState pyodideLoaded syncErr).result with
    | .error e => .error e
    | .ok _ => .ok execResult
  else .ok execResult

/-!
Response synthesis in the SwaggerUI interceptor (src/unnamed/part_006,
lines 221-238).
-/

/-- Model of the SwaggerUI interceptor's response synthesis: the body is the
serialized `content` field of the result when that field is present and
truthy (otherwise the whole result is serialized), and the status is the
`status_code` field when present and truthy, 200 otherwise.  The results
this code receives carry numeric status codes; a non-numeric status field
does not occur and is mapped to the 200 default. -/
def swaggerCreateResponse (result : Json) : ResponseM :=
  let content := match result.getField "content" with
    | some v => if v.truthy then v else result
    | none => result
  let statusCode : Int := match result.getField "status_code" with
    | some (Json.num n) => if n ≠ 0 then n else 200
    | _ => 200
  ⟨statusCode, if statusCode < 300 then "OK" else "Error", content.stringify,
    [("Content-Type", "application/json"),
     ("Access-Control-Allow-Origin", "*"),
     ("Access-Control-Allow-Methods", "GET, POST, PUT, DELETE, OPTIONS"),
     ("Access-Control-Allow-Headers", "Content-Type, Authorization")]⟩

/-!
Body literal normalization in the SwaggerUI interceptor
(src/unnamed/part_006, lines 180-203): three global regex replacements
rewrite a colon, optional whitespace, and the token `True`, `False` or
`None` at a word boundary to a colon, one space, and the JSON literal.
-/

/-- JavaScript word characters (the `\b` boundary class): ASCII letters,
digits and underscore. -/
def isWordChar (c : Char) : Bool :=
  c.isAlpha || c.isDigit || c = '_'

/-- ASCII whitespace as matched by the `\s` class in the source patterns
(the Unicode space characters cannot occur in these JSON bodies). -/
def isSpaceJS (c : Char) : Bool :=
  c = ' ' || c = '\t' || c = '\n' || c = '\r' || c = '\x0b' || c = '\x0c'

/-- Worker for one global replacement pass: scan left to right; at a colon,
if the maximal whitespace run is followed by `tok` ending at a word
boundary, emit `rep` (which carries the colon and single space of the
replacement text) and continue after the token, else keep scanning.  The
fuel argument dominates the length of the remaining input, so a start fuel
of the input length makes the worker total and structural. -/
def repAux (tok rep : List Char) : Nat → List Char → List Char
  | 0, cs => cs
  | _ + 1, [] => []
  | fuel + 1, c :: rest =>
      if c = ':' then
        let ws := rest.takeWhile isSpaceJS
        let rem := rest.drop ws.length
        if tok.isPrefixOf rem &&
            (match rem.drop tok.length with
             | [] => true
             | d :: _ => !isWordChar d) then
          rep ++ repAux tok rep fuel (rem.drop tok.length)
        else c :: repAux tok rep fuel rest
      else c :: repAux tok rep fuel rest

/-- One global replacement of a colon-anchored token, as performed by
`bodyStr.replace(pattern, replacement)` for the three source patterns. -/
def replaceColonTok (tok rep : List Char) (cs : List Char) : List Char :=
  repAux tok rep cs.length cs

/-- Model of the three sequential replacements applied to a string body
before `JSON.parse` (part_006 lines 184-187). -/
def normalizeBody (s : String) : String :=
  String.mk (replaceColonTok "None".data ": null".data
    (replaceColonTok "False".data ": false".data
      (replaceColonTok "True".data ": true".data s.data)))

/-- Whole-word occurrence of `tok` in `cs`: `tok` appears at some position
with no word character immediately before or after.  This is the
formalization of the claim's phrase and is used to state the
counterexample. -/
def wholeWordOccurs (tok : List Char) : List Char → Bool :=
  go true
where
  /-- Scans with a flag telling whether a word boundary precedes the current
  position. -/
  go (boundaryBefore : Bool) : List Char → Bool
    | [] => false
    | c :: rest =>
        (boundaryBefore && tok.isPrefixOf (c :: rest) &&
          (match (c :: rest).drop tok.length with
           | [] => true
           | d :: _ => !isWordChar d)) ||
        go (!isWordChar c) rest

/-!
The embedded runtime's dispatcher, `FastAPIBridge.invoke` (Python source in
src/apps/frontend/src/App.tsx, lines 204-260).
-/

/-- What a registered handler does when called with no arguments: return a
value, raise an `HTTPException` with a status and detail, or raise any
other exception.  A handler that demands arguments raises a `TypeError`,
which falls under the last constructor. -/
inductive HandlerOutcome where
  | returns (v : Json) : HandlerOutcome
  | raisesHTTP (status : Int) (detail : String) : HandlerOutcome
  | raises (msg : String) (tb : String) : HandlerOutcome

/-- One entry of the global route registry (App.tsx lines 186-194):
whether the stored handler is callable, its behavior, and the route
metadata. -/
structure RouteInfo where
  callableHandler : Bool
  handler : HandlerOutcome
  path : String
  method : String

/-- Dictionary lookup in the registry (unique keys, insertion order). -/
def lookupOp (reg : List (String × RouteInfo)) (opId : String) : Option RouteInfo :=
  (reg.find? (fun kv => kv.1 == opId)).map (·.2)

/-- Model of `FastAPIBridge.invoke` (App.tsx lines 204-260).  The handler's
return value is already a JSON-like value here, so `convert_to_serializable`
is the identity on it; the quotes around interpolated names in the source
messages are omitted.  The function is total: every case produces a
content/status record. -/
def fastApiInvoke (reg : List (String × RouteInfo)) (operationId : String) :
    ApiResponse :=
  match lookupOp reg operationId with
  | none =>
      ⟨Json.obj [("detail", Json.str ("Operation " ++ operationId ++ " not found")),
        ("available_operations", Json.arr (reg.map (fun kv => Json.str kv.1)))], 404⟩
  | some ri =>
      if !ri.callableHandler then
        ⟨Json.obj [("detail",
          Json.str ("Handler for " ++ operationId ++ " is not callable"))], 500⟩
      else
        match ri.handler with
        | .returns v => ⟨v, 200⟩
        | .raisesHTTP st d => ⟨Json.obj [("detail", Json.str d)], st⟩
        | .raises m tb =>
            ⟨Json.obj [("detail", Json.str ("Internal server error: " ++ m)),
              ("traceback", Json.str tb)], 500⟩

/-!
Claim theorems.
-/

/-- C8 counterexample: the claim states that under the default configuration
the route matcher accepts a URL iff it starts with `/api`.  The URL `/other`
does not start with `/api`, yet the default matcher accepts it (because the
default `interceptRelative` test accepts every URL that does not start with
`http`), so such a request is intercepted rather than passed through. -/
theorem c8_counterexample :
    defaultRouteMatcher defaultConfig "/other" = true ∧
    strStarts "/other" defaultConfig.apiPrefix = false := by
  decide

/-- C8 (amended): the default route matcher accepts a URL iff the URL starts
with the configured API prefix, or the base URL is nonempty and the URL
starts with it, or relative interception is on and the URL does not start
with `http`; under the default configuration this means: iff the URL starts
with `/api` or does not start with `http`.  Every URL the matcher rejects is
passed through to the original fetch primitive. -/
theorem c8_amended :
    (∀ cfg url,
      defaultRouteMatcher cfg url =
        ((cfg.apiPrefix != "" && strStarts url cfg.apiPrefix) ||
         (cfg.baseUrl != "" && strStarts url cfg.baseUrl) ||
         (cfg.interceptRelative && !strStarts url "http"))) ∧
    (∀ url,
      defaultRouteMatcher defaultConfig url = true ↔
        (strStarts url "/api" = true ∨ strStarts url "http" = false)) ∧
    (∀ cfg endpoints jsonParse call url init,
      defaultRouteMatcher cfg url = false →
      interceptedFetch cfg (defaultRouteMatcher cfg) endpoints jsonParse call url init
        = FetchOutcome.passthrough) := by
  have hbool : ∀ cfg url,
      defaultRouteMatcher cfg url =
        ((cfg.apiPrefix != "" && strStarts url cfg.apiPrefix) ||
         (cfg.baseUrl != "" && strStarts url cfg.baseUrl) ||
         (cfg.interceptRelative && !strStarts url "http")) := by
    intro cfg url
    unfold defaultRouteMatcher
    split_ifs with h1 h2 h3 <;> simp_all
  refine ⟨hbool, ?_, ?_⟩
  · intro url
    rw [hbool]
    simp [defaultConfig]
  · intro cfg endpoints jsonParse call url init hm
    simp [interceptedFetch, hm]

/-- C8 witness: the theorem instantiated at the default configuration and the
absolute URL `http://example.com/a`, which the matcher rejects; the
intercepted fetch passes it through. -/
theorem c8_witness :
    (defaultRouteMatcher defaultConfig "http://example.com/a" = true ↔
      (strStarts "http://example.com/a" "/api" = true ∨
       strStarts "http://example.com/a" "http" = false)) ∧
    interceptedFetch defaultConfig (defaultRouteMatcher defaultConfig) []
      (fun _ => none) (fun _ _ => Except.error ⟨"", "", none, none⟩)
      "http://example.com/a" none = FetchOutcome.passthrough :=
  ⟨c8_amended.2.1 "http://example.com/a",
   c8_amended.2.2 defaultConfig [] (fun _ => none)
     (fun _ _ => Except.error ⟨"", "", none, none⟩) "http://example.com/a" none
     (by decide)⟩

/-- C4 (confirmed): on a bridge whose backend is loaded (and whose runtime is
present), `call` resolves to the decoded content when the runtime result has
status below 400; it rejects with a `CallError` carrying the operation id and
the status code when the status is at least 400; and it rejects with a
`CallError` carrying the operation id when the runtime raises. -/
theorem c4_confirmed (backendLoaded pyodideLoaded : Bool) (operationId : String)
    (runtime : RuntimeOutcome)
    (hb : backendLoaded = true) (hp : pyodideLoaded = true) :
    (∀ r, runtime = .ok r → r.status_code < 400 →
      bridgeCall backendLoaded pyodideLoaded operationId runtime = .ok r.content) ∧
    (∀ r, runtime = .ok r → r.status_code ≥ 400 →
      ∃ e, bridgeCall backendLoaded pyodideLoaded operationId runtime = .error e ∧
        e.operationId = operationId ∧ e.statusCode = some r.status_code ∧
        e.details = some r.content) ∧
    (∀ msg, runtime = .raise msg →
      ∃ e, bridgeCall backendLoaded pyodideLoaded operationId runtime = .error e ∧
        e.operationId = operationId ∧ e.statusCode = none) := by
  subst hb hp
  refine ⟨?_, ?_, ?_⟩
  · intro r hr hlt
    subst hr
    simp [bridgeCall, not_le.mpr hlt]
  · intro r hr hge
    subst hr
    refine ⟨⟨"API call failed: " ++ r.content.stringify, operationId,
      some r.status_code, some r.content⟩, ?_, rfl, rfl, rfl⟩
    simp [bridgeCall, hge]
  · intro msg hr
    subst hr
    refine ⟨⟨"Call failed: " ++ msg, operationId, none, none⟩, ?_, rfl, rfl⟩
    simp [bridgeCall]

/-- C4 witness: the theorem instantiated at a loaded bridge, with a
successful 200 result and with a 404 result. -/
theorem c4_witness :
    bridgeCall true true "get_user" (.ok ⟨Json.num 7, 200⟩) = .ok (Json.num 7) ∧
    ∃ e, bridgeCall true true "get_user" (.ok ⟨Json.null, 404⟩) = .error e ∧
      e.operationId = "get_user" ∧ e.statusCode = some 404 := by
  refine ⟨(c4_confirmed true true "get_user" (.ok ⟨Json.num 7, 200⟩) rfl rfl).1
    ⟨Json.num 7, 200⟩ rfl (by decide), ?_⟩
  obtain ⟨e, he, h1, h2, _⟩ := (c4_confirmed true true "get_user"
    (.ok ⟨Json.null, 404⟩) rfl rfl).2.1 ⟨Json.null, 404⟩ rfl (by decide)
  exact ⟨e, he, h1, h2⟩

/-- C5 counterexample: the claim states that a failed initialization resets
the session to uninitialized, so a subsequent `initialize()` starts a fresh
attempt.  In the code, after the first attempt (promise 0) fails, the stored
promise reference is not cleared: a subsequent call returns the same,
already-rejected promise 0 and starts nothing fresh. -/
theorem c5_counterexample :
    (initCall (initFail (initCall freshSession 0).2) 1).1 = InitResult.awaitExisting 0 ∧
    (initCall (initFail (initCall freshSession 0).2) 1).1 ≠ InitResult.started 1 ∧
    0 ∈ (initFail (initCall freshSession 0).2).rejected ∧
    (initFail (initCall freshSession 0).2).isInitialized = false := by
  decide

/-- C5 (amended): `initialize()` is idempotent while an initialization is in
flight - every such call returns the stored in-flight promise and starts no
duplicate work - and a call on a fresh session stores and returns a new
promise; but a failed attempt leaves both the `isInitialized` flag and the
stored promise reference untouched, so a subsequent `initialize()` call
returns the same rejected promise instead of starting a fresh attempt. -/
theorem c5_amended :
    (∀ s p fresh, s.isInitialized = false → s.initPromise = some p →
      initCall s fresh = (InitResult.awaitExisting p, s)) ∧
    (∀ s fresh, s.isInitialized = false → s.initPromise = none →
      initCall s fresh = (InitResult.started fresh, { s with initPromise := some fresh })) ∧
    (∀ s, (initFail s).isInitialized = s.isInitialized ∧
      (initFail s).initPromise = s.initPromise) ∧
    (∀ s p fresh, s.isInitialized = false → s.initPromise = some p →
      (initCall (initFail s) fresh).1 = InitResult.awaitExisting p ∧
      p ∈ (initFail s).rejected) := by
  refine ⟨?_, ?_, ?_, ?_⟩
  · intro s p fresh h1 h2
    simp [initCall, h1, h2]
  · intro s fresh h1 h2
    simp [initCall, h1, h2]
  · intro s
    cases h : s.initPromise <;> simp [initFail, h]
  · intro s p fresh h1 h2
    constructor
    · simp [initFail, initCall, h1, h2]
    · simp [initFail, h2]

/-- C5 witness: the theorem instantiated at a not-yet-initialized session
with stored promise 5 - `initialize()` returns that promise unchanged, and
after a failure a retry still returns promise 5. -/
theorem c5_witness :
    initCall ⟨false, some 5, []⟩ 9 = (InitResult.awaitExisting 5, ⟨false, some 5, []⟩) ∧
    (initCall (initFail ⟨false, some 5, []⟩) 9).1 = InitResult.awaitExisting 5 :=
  ⟨c5_amended.1 ⟨false, some 5, []⟩ 5 9 rfl rfl,
   (c5_amended.2.2.2 ⟨false, some 5, []⟩ 5 9 rfl rfl).1⟩

/-- C7 counterexample: the claim states the persist operation's promise never
rejects.  `Bridge.persist`, with Pyodide loaded in a browser and an `FS`
object, logs a warning on a reported sync error and then rethrows it: its
promise rejects. -/
theorem c7_counterexample :
    (bridgePersist true true true (some "sync failed")).result
      = Except.error "sync failed" ∧
    (bridgePersist true true true (some "sync failed")).loggedWarning = true := by
  constructor <;> rfl

/-- C7 (amended): `PyodidePersistence.savePersistentState` never rejects - a
reported flush error is logged and swallowed - and therefore the surrounding
API call of `PyodideEngine.executeEndpoint` that triggers an auto-save never
fails because of persistence; `Bridge.persist`, however, logs the warning and
rethrows, so its promise does reject on a flush failure. -/
theorem c7_amended :
    (∀ pyodideLoaded syncErr,
      (savePersistentState pyodideLoaded syncErr).result = .ok ()) ∧
    (∀ pyodideLoaded e, pyodideLoaded = true →
      (savePersistentState pyodideLoaded (some e)).loggedWarning = true) ∧
    (∀ execResult shouldAutoSave pyodideLoaded syncErr,
      executeEndpointAutoSave execResult shouldAutoSave pyodideLoaded syncErr
        = .ok execResult) ∧
    (∀ e, (bridgePersist true true true (some e)).loggedWarning = true ∧
      (bridgePersist true true true (some e)).result = .error e) := by
  have hsave : ∀ pyodideLoaded syncErr,
      (savePersistentState pyodideLoaded syncErr).result = .ok () := by
    intro pyodideLoaded syncErr
    cases pyodideLoaded <;> cases syncErr <;> rfl
  refine ⟨hsave, ?_, ?_, ?_⟩
  · intro pyodideLoaded e h
    subst h
    rfl
  · intro execResult shouldAutoSave pyodideLoaded syncErr
    cases shouldAutoSave with
    | false => rfl
    | true => simp [executeEndpointAutoSave, hsave]
  · intro e
    exact ⟨rfl, rfl⟩

/-- C7 witness: the theorem instantiated at a loaded engine with a failing
flush - the save resolves, logs, and the surrounding call returns its
result. -/
theorem c7_witness :
    (savePersistentState true (some "quota exceeded")).result = .ok () ∧
    (savePersistentState true (some "quota exceeded")).loggedWarning = true ∧
    executeEndpointAutoSave (Json.num 7) true true (some "quota exceeded")
      = .ok (Json.num 7) :=
  ⟨c7_amended.1 true (some "quota exceeded"),
   c7_amended.2.1 true "quota exceeded" rfl,
   c7_amended.2.2.1 (Json.num 7) true true (some "quota exceeded")⟩

/-- C10 (confirmed): `FastAPIBridge.invoke` is total over its error cases -
being a Lean function into `ApiResponse` it always yields a content/status
record and never raises - and: an unknown operation id yields 404 with the
available operation list in the content, a non-callable handler yields 500,
an `HTTPException` from the handler yields the exception's own status with
its detail, any other handler exception yields 500, and a normal return
yields the serialized value with 200. -/
theorem c10_confirmed (reg : List (String × RouteInfo)) (opId : String) :
    (lookupOp reg opId = none →
      (fastApiInvoke reg opId).status_code = 404 ∧
      (fastApiInvoke reg opId).content.getField "available_operations"
        = some (Json.arr (reg.map (fun kv => Json.str kv.1)))) ∧
    (∀ ri, lookupOp reg opId = some ri → ri.callableHandler = false →
      (fastApiInvoke reg opId).status_code = 500) ∧
    (∀ ri st d, lookupOp reg opId = some ri → ri.callableHandler = true →
      ri.handler = .raisesHTTP st d →
      fastApiInvoke reg opId = ⟨Json.obj [("detail", Json.str d)], st⟩) ∧
    (∀ ri m tb, lookupOp reg opId = some ri → ri.callableHandler = true →
      ri.handler = .raises m tb →
      (fastApiInvoke reg opId).status_code = 500) ∧
    (∀ ri v, lookupOp reg opId = some ri → ri.callableHandler = true →
      ri.handler = .returns v →
      fastApiInvoke reg opId = ⟨v, 200⟩) := by
  refine ⟨?_, ?_, ?_, ?_, ?_⟩
  · intro h
    simp [fastApiInvoke, h, Json.getField]
  · intro ri h hc
    simp [fastApiInvoke, h, hc]
  · intro ri st d h hc hh
    simp [fastApiInvoke, h, hc, hh]
  · intro ri m tb h hc hh
    simp [fastApiInvoke, h, hc, hh]
  · intro ri v h hc hh
    simp [fastApiInvoke, h, hc, hh]

/-- C10 witness: the theorem instantiated at a two-entry registry - an
unknown id gives 404 with the available operations, an `HTTPException` with
status 418 propagates its own status, and a crashing handler gives 500. -/
theorem c10_witness :
    ((fastApiInvoke [("get_user", ⟨true, .raisesHTTP 418 "teapot", "/users", "GET"⟩),
        ("boom", ⟨true, .raises "oops" "tb", "/boom", "GET"⟩)] "nope").status_code = 404 ∧
      (fastApiInvoke [("get_user", ⟨true, .raisesHTTP 418 "teapot", "/users", "GET"⟩),
        ("boom", ⟨true, .raises "oops" "tb", "/boom", "GET"⟩)] "nope").content.getField
          "available_operations"
        = some (Json.arr [Json.str "get_user", Json.str "boom"])) ∧
    fastApiInvoke [("get_user", ⟨true, .raisesHTTP 418 "teapot", "/users", "GET"⟩),
        ("boom", ⟨true, .raises "oops" "tb", "/boom", "GET"⟩)] "get_user"
      = ⟨Json.obj [("detail", Json.str "teapot")], 418⟩ ∧
    (fastApiInvoke [("get_user", ⟨true, .raisesHTTP 418 "teapot", "/users", "GET"⟩),
        ("boom", ⟨true, .raises "oops" "tb", "/boom", "GET"⟩)] "boom").status_code = 500 := by
  refine ⟨?_, ?_, ?_⟩
  · exact (c10_confirmed [("get_user", ⟨true, .raisesHTTP 418 "teapot", "/users", "GET"⟩),
      ("boom", ⟨true, .raises "oops" "tb", "/boom", "GET"⟩)] "nope").1 rfl
  · exact (c10_confirmed [("get_user", ⟨true, .raisesHTTP 418 "teapot", "/users", "GET"⟩),
      ("boom", ⟨true, .raises "oops" "tb", "/boom", "GET"⟩)] "get_user").2.2.1
      ⟨true, .raisesHTTP 418 "teapot", "/users", "GET"⟩ 418 "teapot" rfl rfl rfl
  · exact (c10_confirmed [("get_user", ⟨true, .raisesHTTP 418 "teapot", "/users", "GET"⟩),
      ("boom", ⟨true, .raises "oops" "tb", "/boom", "GET"⟩)] "boom").2.2.2.1
      ⟨true, .raises "oops" "tb", "/boom", "GET"⟩ "oops" "tb" rfl rfl rfl

/-- C3 counterexample: the claim states that for every invocation result the
synthesized `Response` carries the result's status.  `FetchInterceptor.createResponse`
hardcodes status 200: applied to a result record whose status is 404, the
synthesized status is 200, not 404. -/
theorem c3_counterexample :
    (createResponse (Json.obj [("content", Json.obj [("id", Json.num 7)]),
      ("status_code", Json.num 404)])).status = 200 ∧
    (createResponse (Json.obj [("content", Json.obj [("id", Json.num 7)]),
      ("status_code", Json.num 404)])).status ≠ 404 := by
  constructor
  · rfl
  · intro h
    simp [createResponse] at h

/-- C3 (amended): for every result record with a numeric status field, the
SwaggerUI interceptor's synthesizer returns a `Response` whose status is the
result's status code when that code is nonzero and 200 otherwise (the
source's `status_code || 200`), and whose body is the JSON-serialized
payload when the payload is truthy - a falsy payload makes the source's
`content || result` serialize the whole result record instead; a result
without a status field defaults to 200.  In particular a 404 result with a
truthy payload becomes a status-404 response carrying the serialized
payload, with no exception.  `FetchInterceptor.createResponse`, by contrast,
ignores the result and always synthesizes status 200 around the serialized
data. -/
theorem c3_amended :
    (∀ payload st,
      (swaggerCreateResponse (Json.obj [("content", payload),
        ("status_code", Json.num st)])).status = (if st ≠ 0 then st else 200) ∧
      (swaggerCreateResponse (Json.obj [("content", payload),
        ("status_code", Json.num st)])).body
        = (if payload.truthy then payload
           else Json.obj [("content", payload), ("status_code", Json.num st)]).stringify) ∧
    (∀ r, r.getField "status_code" = none → (swaggerCreateResponse r).status = 200) ∧
    (∀ data, (createResponse data).status = 200 ∧
      (createResponse data).body = data.stringify) := by
  refine ⟨?_, ?_, ?_⟩
  · intro payload st
    constructor
    · simp [swaggerCreateResponse, Json.getField, List.find?]
    · simp [swaggerCreateResponse, Json.getField, List.find?]
  · intro r h
    simp [swaggerCreateResponse, h]
  · intro data
    exact ⟨rfl, rfl⟩

/-- C3 witness: the theorem instantiated at a 404 result with the truthy
payload `(detail: not found)` - the SwaggerUI response has status 404 and
the serialized payload as body - at a result without a status field, and at
a plain payload for `createResponse`. -/
theorem c3_witness :
    (swaggerCreateResponse (Json.obj [("content",
        Json.obj [("detail", Json.str "not found")]),
      ("status_code", Json.num 404)])).status = 404 ∧
    (swaggerCreateResponse (Json.obj [("content",
        Json.obj [("detail", Json.str "not found")]),
      ("status_code", Json.num 404)])).body
      = (Json.obj [("detail", Json.str "not found")]).stringify ∧
    (swaggerCreateResponse (Json.obj [("content", Json.num 1)])).status = 200 ∧
    (createResponse (Json.num 7)).status = 200 := by
  have h := c3_amended.1 (Json.obj [("detail", Json.str "not found")]) 404
  refine ⟨?_, ?_, ?_, (c3_amended.2.2 (Json.num 7)).1⟩
  · rw [h.1]
    norm_num
  · have hb := h.2
    simpa [Json.truthy] using hb
  · exact c3_amended.2.1 (Json.obj [("content", Json.num 1)]) rfl

/-- C6 counterexample: the claim states every whole-word occurrence of `True`
is rewritten.  In the body below, `True` occurs as a whole word (inside an
array), but the source's replacement only fires after a colon and optional
whitespace, so the body is left entirely unchanged. -/
theorem c6_counterexample :
    normalizeBody "\x7b\"a\": [True]\x7d" = "\x7b\"a\": [True]\x7d" ∧
    wholeWordOccurs "True".data "\x7b\"a\": [True]\x7d".data = true := by
  decide

/-- C6 (amended): the rewriting of `True`, `False`, `None` to `true`,
`false`, `null` fires only at occurrences immediately preceded by a colon
and optional whitespace and delimited on the right by a word boundary (the
colon-whitespace prefix is normalized to colon-space).  In particular a
string without any colon is never altered; colon-anchored whole tokens are
rewritten; and a longer token such as `Trueish` is left unaltered. -/
theorem c6_amended :
    (∀ tok rep cs, ':' ∉ cs →
      replaceColonTok tok rep cs = cs) ∧
    normalizeBody "\x7b\"flag\": True, \"x\": False, \"y\": None\x7d"
      = "\x7b\"flag\": true, \"x\": false, \"y\": null\x7d" ∧
    normalizeBody "\x7b\"flag\": Trueish\x7d" = "\x7b\"flag\": Trueish\x7d" ∧
    normalizeBody "\x7b\"a\":\t True\x7d" = "\x7b\"a\": true\x7d" := by
  have hrep : ∀ tok rep fuel cs, ':' ∉ cs → repAux tok rep fuel cs = cs := by
    intro tok rep fuel
    induction fuel with
    | zero => intro cs _; rfl
    | succ fuel ih =>
        intro cs hcs
        cases cs with
        | nil => rfl
        | cons c rest =>
            have hc : c ≠ ':' := fun e => hcs (by simp [e])
            have ht := ih rest (fun m => hcs (by simp [m]))
            simp [repAux, hc, ht]
  exact ⟨fun tok rep cs h => hrep tok rep cs.length cs h, by decide, by decide, by decide⟩

/-- C6 witness: the theorem's no-colon clause instantiated at the token
`True` and a colon-free body, which is returned unchanged. -/
theorem c6_witness :
    replaceColonTok "True".data ": true".data "[True, False]".data
      = "[True, False]".data :=
  c6_amended.1 "True".data ": true".data "[True, False]".data (by decide)

theorem getLast?_cons_or {α : Type} (a : α) (l : List α) (x : Option α) :
    ((a :: l).getLast?).or x = (l.getLast?).or (some a) := by
  cases l with
  | nil => simp
  | cons b l =>
      rw [List.getLast?_cons_cons]
      cases h : (b :: l).getLast? with
      | none => simp [List.getLast?_eq_none_iff] at h
      | some y => simp [h]

theorem extractParams_foldl (params : List (String × Json))
    (acc : List (String × Json) × List (String × Json) × Option Json) :
    params.foldl
      (fun acc kv =>
        if strEnds kv.1 "_id" || kv.1 == "id" then (acc.1 ++ [kv], acc.2.1, acc.2.2)
        else if jsIsObject kv.2 then (acc.1, acc.2.1, some kv.2)
        else (acc.1, acc.2.1 ++ [kv], acc.2.2))
      acc =
    (acc.1 ++ params.filter (fun kv => strEnds kv.1 "_id" || kv.1 == "id"),
     acc.2.1 ++ params.filter
       (fun kv => !(strEnds kv.1 "_id" || kv.1 == "id") && !jsIsObject kv.2),
     (((params.filter (fun kv => !(strEnds kv.1 "_id" || kv.1 == "id")
         && jsIsObject kv.2)).map Prod.snd).getLast?).or acc.2.2) := by
  induction params generalizing acc with
  | nil => simp
  | cons kv ps ih =>
      rw [List.foldl_cons, ih]
      by_cases hid : (strEnds kv.1 "_id" || kv.1 == "id") = true
      · rw [if_pos hid]
        rw [List.filter_cons_of_pos (p := fun kv : String × Json =>
            strEnds kv.1 "_id" || kv.1 == "id") hid,
          List.filter_cons_of_neg (p := fun kv : String × Json =>
            !(strEnds kv.1 "_id" || kv.1 == "id") && !jsIsObject kv.2) (by simp [hid]),
          List.filter_cons_of_neg (p := fun kv : String × Json =>
            !(strEnds kv.1 "_id" || kv.1 == "id") && jsIsObject kv.2) (by simp [hid])]
        simp [List.append_assoc]
      · have hid' : (strEnds kv.1 "_id" || kv.1 == "id") = false := by
          revert hid
          cases strEnds kv.1 "_id" || kv.1 == "id" <;> simp
        rw [if_neg hid]
        by_cases hobj : jsIsObject kv.2 = true
        · rw [if_pos hobj]
          rw [List.filter_cons_of_neg (p := fun kv : String × Json =>
              strEnds kv.1 "_id" || kv.1 == "id") hid,
            List.filter_cons_of_neg (p := fun kv : String × Json =>
              !(strEnds kv.1 "_id" || kv.1 == "id") && !jsIsObject kv.2) (by simp [hobj]),
            List.filter_cons_of_pos (p := fun kv : String × Json =>
              !(strEnds kv.1 "_id" || kv.1 == "id") && jsIsObject kv.2)
              (by simp [hid', hobj])]
          simp only [List.map_cons]
          rw [getLast?_cons_or]
        · have hobj' : jsIsObject kv.2 = false := by
            revert hobj
            cases jsIsObject kv.2 <;> simp
          rw [if_neg hobj]
          rw [List.filter_cons_of_neg (p := fun kv : String × Json =>
              strEnds kv.1 "_id" || kv.1 == "id") hid,
            List.filter_cons_of_pos (p := fun kv : String × Json =>
              !(strEnds kv.1 "_id" || kv.1 == "id") && !jsIsObject kv.2)
              (by simp [hid', hobj']),
            List.filter_cons_of_neg (p := fun kv : String × Json =>
              !(strEnds kv.1 "_id" || kv.1 == "id") && jsIsObject kv.2) (by simp [hobj'])]
          simp [List.append_assoc]

/-- C9 (confirmed): `Bridge._extractParams` classifies each entry of the
params record purely by the shape of its key and value - the endpoint table
and operation id never influence the result: entries whose key ends in `_id`
or equals `id` become path parameters (in order), other object-valued
entries fight for the single body slot with the last one winning, and all
remaining entries become query parameters (in order). -/
theorem c9_confirmed (endpoints : List Endpoint) (operationId : String)
    (params : List (String × Json)) :
    extractParams endpoints operationId params =
      (params.filter (fun kv => strEnds kv.1 "_id" || kv.1 == "id"),
       params.filter
         (fun kv => !(strEnds kv.1 "_id" || kv.1 == "id") && !jsIsObject kv.2),
       ((params.filter (fun kv => !(strEnds kv.1 "_id" || kv.1 == "id")
           && jsIsObject kv.2)).map Prod.snd).getLast?) ∧
    extractParams endpoints operationId params = extractParams [] "" params := by
  constructor
  · show params.foldl _ ([], [], none) = _
    rw [extractParams_foldl]
    simp
  · rfl

/-- C1 counterexample: the claim states that an intercepted request with no
matching operation resolves to a synthetic 404-style response and is never
forwarded to the original fetch.  For `GET /api/users/7/orders` against a
registry holding only `GET /users/(id)`, the route matcher accepts the URL
and no operation matches - and the intercepted fetch forwards the request to
the original fetch primitive (the thrown no-endpoint error is swallowed by
the fallback), producing no synthetic response. -/
theorem c1_counterexample :
    defaultRouteMatcher defaultConfig "/api/users/7/orders" = true ∧
    findEndpointMatch defaultConfig [⟨"get_user", "/users/\x7bid\x7d", "GET"⟩]
      (cleanUrl defaultConfig "/api/users/7/orders") "GET" = none ∧
    interceptedFetch defaultConfig (defaultRouteMatcher defaultConfig)
      [⟨"get_user", "/users/\x7bid\x7d", "GET"⟩] (fun _ => none)
      (fun _ _ => Except.ok Json.null) "/api/users/7/orders" none
      = FetchOutcome.passthrough :=
  ⟨by decide, by decide, rfl⟩

/-- C1 (amended): for every intercepted request (one the route matcher
accepts), if no registered operation matches the method and cleaned path, or
the bridge call rejects, the intercepted fetch swallows the error and falls
back to the original network fetch primitive - it builds no synthetic error
response and the exception does not escape; only a fully successful pipeline
resolves with a synthesized (status 200) response. -/
theorem c1_amended (cfg : InterceptorConfig) (routeMatcher : String → Bool)
    (endpoints : List Endpoint) (jsonParse : String → Option Json)
    (call : String → List (String × Json) → Except CallErrorE Json)
    (url : String) (init : Option ReqInit)
    (hm : routeMatcher url = true) :
    (findEndpointMatch cfg endpoints (cleanUrl cfg url) (requestMethod init) = none →
      interceptedFetch cfg routeMatcher endpoints jsonParse call url init
        = FetchOutcome.passthrough) ∧
    (∀ ep pp e,
      findEndpointMatch cfg endpoints (cleanUrl cfg url) (requestMethod init)
        = some (ep, pp) →
      call ep.operationId (extractParameters cfg endpoints jsonParse url ep init)
        = .error e →
      interceptedFetch cfg routeMatcher endpoints jsonParse call url init
        = FetchOutcome.passthrough) ∧
    (∀ ep pp result,
      findEndpointMatch cfg endpoints (cleanUrl cfg url) (requestMethod init)
        = some (ep, pp) →
      call ep.operationId (extractParameters cfg endpoints jsonParse url ep init)
        = .ok result →
      interceptedFetch cfg routeMatcher endpoints jsonParse call url init
        = FetchOutcome.response (createResponse result)) := by
  refine ⟨?_, ?_, ?_⟩
  · intro hfind
    simp [interceptedFetch, hm, handleInterceptedRequest, hfind]
  · intro ep pp e hfind hcall
    simp [interceptedFetch, hm, handleInterceptedRequest, hfind, hcall]
  · intro ep pp result hfind hcall
    simp [interceptedFetch, hm, handleInterceptedRequest, hfind, hcall]

/-- C1 witness: the theorem instantiated at `GET /api/users/7` with a
matching endpoint and a successful bridge call returning 7; the intercepted
fetch resolves with the synthesized response. -/
theorem c1_witness :
    interceptedFetch defaultConfig (defaultRouteMatcher defaultConfig)
      [⟨"get_user", "/users/\x7bid\x7d", "GET"⟩] (fun _ => none)
      (fun _ _ => Except.ok (Json.num 7)) "/api/users/7" none
      = FetchOutcome.response (createResponse (Json.num 7)) :=
  (c1_amended defaultConfig (defaultRouteMatcher defaultConfig)
      [⟨"get_user", "/users/\x7bid\x7d", "GET"⟩] (fun _ => none)
      (fun _ _ => Except.ok (Json.num 7)) "/api/users/7" none (by decide)).2.2
    ⟨"get_user", "/users/\x7bid\x7d", "GET"⟩ [("id", "7")] (Json.num 7)
    (by decide) rfl

/-- C2 counterexample: the claim states that a binding is returned iff the
segment counts agree and every literal segment matches (so the template
`/users/(id)` against the path `/users/` - equal counts, literals `""` and
`"users"` both equal - must bind `id` to the empty segment, as the claim's
reading `segMatchOrig` does); but the code's matcher returns none, because
the compiled `([^/]+)` group refuses an empty segment. -/
theorem c2_counterexample :
    matchPath "/users/" "/users/\x7bid\x7d" = none ∧
    templateOfSegs [Seg.lit [], Seg.lit "users".data, Seg.par "id".data]
      = "/users/\x7bid\x7d".data ∧
    splitSlash "/users/".data = [[], "users".data, []] ∧
    segMatchOrig [Seg.lit [], Seg.lit "users".data, Seg.par "id".data]
      (splitSlash "/users/".data) = some [("id", "")] := by
  decide

/-- C2 (amended): for every well-formed template - presented as its nonempty
segment sequence, each segment a literal of plain characters or a
brace-delimited parameter - and every request path, `matchPath` returns
exactly the segment-wise match that binds each parameter, in declaration
order, to the corresponding segment, succeeding iff the segment counts
agree, every literal segment matches exactly (case-sensitively), and every
parameter's corresponding segment is nonempty. -/
theorem c2_amended (segs : List Seg) (s : Seg) (P : List Char)
    (hwf : ∀ t ∈ s :: segs, wfSeg t) :
    matchPath (String.mk P) (String.mk (templateOfSegs (s :: segs)))
      = segMatch (s :: segs) (splitSlash P) :=
  tokMatcher_segs segs s hwf P

/-- C2 witness: the theorem instantiated at the template `/users/(id)` and
the path `/users/42`, where both sides yield the binding of `id` to `42`. -/
theorem c2_witness :
    matchPath (String.mk "/users/42".data)
        (String.mk (templateOfSegs [Seg.lit [], Seg.lit "users".data, Seg.par "id".data]))
      = segMatch [Seg.lit [], Seg.lit "users".data, Seg.par "id".data]
          (splitSlash "/users/42".data) ∧
    segMatch [Seg.lit [], Seg.lit "users".data, Seg.par "id".data]
        (splitSlash "/users/42".data) = some [("id", "42")] :=
  ⟨c2_amended [Seg.lit "users".data, Seg.par "id".data] (Seg.lit [])
      "/users/42".data (by decide),
   by decide⟩

end Bridgework
